import Mathlib

/-!
# Verification of the cascade streaming speech-segmentation core

Shallow embedding of `src/cascade/stream/state_machine.py` and
`src/cascade/stream/processor.py`.  The collaborating modules
`collector.py`, `interruption_manager.py`, `frame_aligned_buffer.py` and
`types.py` are not part of the source snapshot; the definitions for those
are modelled from the specification (each such definition carries a
`Modelled from the spec:` doc comment).

Modelling conventions:
* byte strings are `List Nat`; PCM samples stay uninterpreted because no
  verified property depends on the numeric sample values;
* wall-clock measurements (chunk processing latency, the time recorded in
  `_last_process_time`) are inputs `elapsed`/`now : ℚ` supplied by the
  environment; the float arithmetic of the statistics is carried out in `ℚ`;
* the per-result wall-clock field `processing_time_ms` that
  `process_frame` stamps onto a result is omitted from `CascadeResult`
  (it is measured time, carrying no logical content);
* Python exceptions are explicit outcome constructors carrying the state
  of the object at the moment the exception propagates (in-place mutations
  performed before the failure survive, as they do in Python).
-/

namespace Cascade

/-- Modelled from the spec: `SystemState` enum of `types.py` (absent from the
snapshot), §3: conversational state `{Idle, Collecting, Processing, Responding}`. -/
inductive SystemState where
  | idle
  | collecting
  | processing
  | responding
deriving DecidableEq, Repr

/-- `VADState` enum of `state_machine.py` (IDLE / COLLECTING). -/
inductive VADState where
  | idle
  | collecting
deriving DecidableEq, Repr

/-- The shape of a Python VAD verdict dict as consumed by
`_handle_vad_result`: only membership of the keys `start` / `end` is ever
inspected, so the dict is abstracted to the two membership bits. -/
structure VerdictDict where
  hasStart : Bool
  hasEnd : Bool
deriving DecidableEq, Repr

/-- Modelled from the spec: `AudioFrame` of `types.py` (absent from the
snapshot), §3, with the fields used by `processor.py` / `state_machine.py`:
id, raw sample bytes, timestamp and the oracle verdict. -/
structure AudioFrame where
  frame_id : Nat
  audio_data : List Nat
  timestamp_ms : Nat
  vad_result : Option VerdictDict
deriving DecidableEq, Repr

/-- Modelled from the spec: `InterruptionEvent` of `types.py` (absent from
the snapshot), §3: `{timestamp_ms, prior_system_state}`. -/
structure InterruptionEvent where
  timestamp_ms : Nat
  system_state : SystemState
deriving DecidableEq, Repr

/-- Modelled from the spec: finalized `SpeechSegment` of `types.py`
(absent from the snapshot), §3. -/
structure SpeechSegment where
  segment_id : Nat
  frames : List AudioFrame
  start_timestamp_ms : Nat
  end_timestamp_ms : Nat
  duration_ms : Int
deriving DecidableEq, Repr

/-- Modelled from the spec: `SpeechCollector` of `collector.py` (absent
from the snapshot), §4.2: accumulates the frames of one speech segment. -/
structure SpeechCollector where
  segment_id : Nat
  frames : List AudioFrame
deriving DecidableEq, Repr

/-- Modelled from the spec: `start_collection(frame)` begins a new segment
containing `frame` as its first member (§4.2). -/
def SpeechCollector.start_collection (c : SpeechCollector) (f : AudioFrame) :
    SpeechCollector :=
  { c with frames := [f] }

/-- Modelled from the spec: `add_frame(frame)` appends (§4.2). -/
def SpeechCollector.add_frame (c : SpeechCollector) (f : AudioFrame) :
    SpeechCollector :=
  { c with frames := c.frames ++ [f] }

def SpeechCollector.frame_count (c : SpeechCollector) : Nat :=
  c.frames.length

/-- Modelled from the spec: `end_collection(frame)` appends `frame` as the
last member and finalizes the segment (§4.2): `start_timestamp_ms` /
`end_timestamp_ms` are the first / last member frame timestamps and
`duration_ms = end - start`. -/
def SpeechCollector.end_collection (c : SpeechCollector) (f : AudioFrame) :
    SpeechSegment :=
  let frames := c.frames ++ [f]
  let start_ts := ((frames.head?).map AudioFrame.timestamp_ms).getD 0
  { segment_id := c.segment_id
    frames := frames
    start_timestamp_ms := start_ts
    end_timestamp_ms := f.timestamp_ms
    duration_ms := (f.timestamp_ms : Int) - (start_ts : Int) }

/-- Modelled from the spec: `CascadeResult` of `types.py` (absent from the
snapshot), §3/§4.4: a tagged result (`result_type` is the Python string
tag), at most one of the payload fields populated.  The measured
`processing_time_ms` field is omitted (wall-clock, no logical content). -/
structure CascadeResult where
  result_type : String
  frame : Option AudioFrame
  segment : Option SpeechSegment
  interruption : Option InterruptionEvent
  instance_id : String
deriving DecidableEq, Repr

/-- Modelled from the spec: the `is_speech_segment` property of
`CascadeResult` used by `_process_chunk_internal` (types.py absent). -/
def CascadeResult.is_speech_segment (r : CascadeResult) : Bool :=
  r.result_type == "segment"

/-- Modelled from the spec: the `is_interruption` property of
`CascadeResult` used by `verify_interruption.py` (types.py absent). -/
def CascadeResult.is_interruption (r : CascadeResult) : Bool :=
  r.result_type == "interruption"

/-- Modelled from the spec: `InterruptionManager` of
`interruption_manager.py` (absent from the snapshot), §4.3: owns the
session-wide `SystemState`, the debounce baseline and the statistics
counters. -/
structure InterruptionManager where
  enable_interruption : Bool
  min_interval_ms : Nat
  state : SystemState
  last_interruption_ms : Option Nat
  interruption_count : Nat
  debounced_count : Nat
  transition_count : Nat
deriving DecidableEq, Repr

/-- Modelled from the spec: `on_speech_start(timestamp_ms)` (§4.3): if the
current state is `Processing` or `Responding` and at least
`min_interval_ms` has elapsed since the last accepted interruption (and
interruption handling is enabled), transition to `Collecting` and return
an `InterruptionEvent` carrying the prior state; otherwise transition to
`Collecting` and return nothing. -/
def InterruptionManager.on_speech_start (m : InterruptionManager) (ts : Nat) :
    InterruptionManager × Option InterruptionEvent :=
  if m.state = SystemState.processing ∨ m.state = SystemState.responding then
    let debounce_ok : Bool :=
      match m.last_interruption_ms with
      | none => true
      | some t => decide (t + m.min_interval_ms ≤ ts)
    if m.enable_interruption && debounce_ok then
      ({ m with state := SystemState.collecting
                last_interruption_ms := some ts
                interruption_count := m.interruption_count + 1
                transition_count := m.transition_count + 1 },
       some { timestamp_ms := ts, system_state := m.state })
    else
      ({ m with state := SystemState.collecting
                debounced_count := m.debounced_count + 1
                transition_count := m.transition_count + 1 }, none)
  else
    ({ m with state := SystemState.collecting
              transition_count :=
                if m.state = SystemState.collecting then m.transition_count
                else m.transition_count + 1 }, none)

/-- Modelled from the spec: `on_speech_end(timestamp_ms)` (§4.3):
transitions the state from `Collecting` back to `Idle`. -/
def InterruptionManager.on_speech_end (m : InterruptionManager) (_ts : Nat) :
    InterruptionManager :=
  if m.state = SystemState.collecting then
    { m with state := SystemState.idle
             transition_count := m.transition_count + 1 }
  else m

/-- Modelled from the spec: `set_state(s)` external override (§4.3). -/
def InterruptionManager.set_state (m : InterruptionManager) (s : SystemState) :
    InterruptionManager :=
  { m with state := s
           transition_count :=
             if m.state = s then m.transition_count
             else m.transition_count + 1 }

def InterruptionManager.get_state (m : InterruptionManager) : SystemState :=
  m.state

/-- The interface of the interruption manager as `state_machine.py` uses
it (duck typing in the source): the three methods called on
`self.interruption_manager`, over an abstract manager state `σ`.  The
`interruption_manager = None` configuration of the source is the instance
whose methods are no-ops and whose `get_state` is constantly
`Collecting` (so the gatekeeper test never fires), exactly reproducing
the skipped branches. -/
structure ArbiterImpl (σ : Type) where
  on_speech_start : σ → Nat → σ × Option InterruptionEvent
  on_speech_end : σ → Nat → σ
  get_state : σ → SystemState

/-- The `ArbiterImpl` instance given by the (spec-modelled)
`InterruptionManager`. -/
def managerArbiter : ArbiterImpl InterruptionManager where
  on_speech_start := InterruptionManager.on_speech_start
  on_speech_end := InterruptionManager.on_speech_end
  get_state := InterruptionManager.get_state

/-- `VADStateMachine` of `state_machine.py`, parametric in the manager
state `σ` (the source holds a reference to the manager object; here the
manager state is a field and the methods come from an `ArbiterImpl σ`). -/
structure VADStateMachine (σ : Type) where
  instance_id : String
  state : VADState
  current_collector : Option SpeechCollector
  segment_counter : Nat
  manager : σ

/-- `_handle_no_speech` of `state_machine.py`: while collecting, append
the frame to the open collector and emit nothing; otherwise emit a
frame-level result. -/
def handle_no_speech {σ : Type} (m : VADStateMachine σ) (f : AudioFrame) :
    VADStateMachine σ × Option CascadeResult :=
  match m.state, m.current_collector with
  | VADState.collecting, some c =>
      ({ m with current_collector := some (c.add_frame f) }, none)
  | _, _ =>
      (m, some { result_type := "frame"
                 frame := some f
                 segment := none
                 interruption := none
                 instance_id := m.instance_id })

/-- `_handle_speech_start` of `state_machine.py`: notify
`on_speech_start`, then the gatekeeper re-reads the manager state and
bails out if it is not `Collecting`; a duplicate start while already
collecting is ignored; otherwise a fresh collector is opened, the local
state set to `Collecting`, and an interruption result emitted exactly
when the manager returned an event. -/
def handle_speech_start {σ : Type} (A : ArbiterImpl σ) (m : VADStateMachine σ)
    (f : AudioFrame) : VADStateMachine σ × Option CascadeResult :=
  let call := A.on_speech_start m.manager f.timestamp_ms
  let interruption_event := call.2
  let m1 := { m with manager := call.1 }
  if A.get_state m1.manager ≠ SystemState.collecting then
    (m1, none)
  else if m1.state = VADState.collecting then
    (m1, none)
  else
    let sc := m1.segment_counter + 1
    let coll := SpeechCollector.start_collection { segment_id := sc, frames := [] } f
    let m2 := { m1 with segment_counter := sc
                        current_collector := some coll
                        state := VADState.collecting }
    match interruption_event with
    | some e =>
        (m2, some { result_type := "interruption"
                    frame := none
                    segment := none
                    interruption := some e
                    instance_id := m.instance_id })
    | none => (m2, none)

/-- `_handle_speech_end` of `state_machine.py`: notify `on_speech_end`
unconditionally; if not collecting (or no open collector) ignore;
otherwise finalize the segment, reset to `Idle` and emit a segment
result. -/
def handle_speech_end {σ : Type} (A : ArbiterImpl σ) (m : VADStateMachine σ)
    (f : AudioFrame) : VADStateMachine σ × Option CascadeResult :=
  let m1 := { m with manager := A.on_speech_end m.manager f.timestamp_ms }
  match m1.state, m1.current_collector with
  | VADState.collecting, some c =>
      ({ m1 with state := VADState.idle, current_collector := none },
       some { result_type := "segment"
              frame := none
              segment := some (c.end_collection f)
              interruption := none
              instance_id := m.instance_id })
  | _, _ => (m1, none)

/-- `_handle_vad_result` of `state_machine.py`: dispatch on the verdict;
`None` and any dict carrying neither a `start` nor an `end` key go to the
no-speech handler (the source logs a warning for the latter). -/
def handle_vad_result {σ : Type} (A : ArbiterImpl σ) (m : VADStateMachine σ)
    (f : AudioFrame) : VADStateMachine σ × Option CascadeResult :=
  match f.vad_result with
  | none => handle_no_speech m f
  | some v =>
      if v.hasStart then handle_speech_start A m f
      else if v.hasEnd then handle_speech_end A m f
      else handle_no_speech m f

/-- `process_frame` of `state_machine.py`.  The source wraps
`_handle_vad_result` with wall-clock timing and stamps the measured
`processing_time_ms` and the `instance_id` onto the result; the timing
field is omitted from the model and `instance_id` is already set by every
handler, so the wrapper is the identity here. -/
def process_frame {σ : Type} (A : ArbiterImpl σ) (m : VADStateMachine σ)
    (f : AudioFrame) : VADStateMachine σ × Option CascadeResult :=
  handle_vad_result A m f

/-- `reset` of `state_machine.py`: discard any open collection, return to
`Idle`, clear the segment counter. -/
def VADStateMachine.reset {σ : Type} (m : VADStateMachine σ) :
    VADStateMachine σ :=
  { m with state := VADState.idle
           current_collector := none
           segment_counter := 0 }

/-- `AUDIO_FRAME_SIZE` of `types.py` (spec §3: 512 samples per frame). -/
def AUDIO_FRAME_SIZE : Nat := 512

/-- Bytes per complete frame: 512 samples of 2 bytes each (16-bit PCM). -/
def FRAME_BYTES : Nat := AUDIO_FRAME_SIZE * 2

/-- `MAX_CHUNK_SIZE` of `processor.py`: 512 KiB. -/
def MAX_CHUNK_SIZE : Nat := 512 * 1024

/-- Modelled from the spec: `FrameAlignedBuffer` of
`frame_aligned_buffer.py` (absent from the snapshot), §4.1: a byte
accumulator yielding complete fixed-size frames from the front.  The
configurable capacity fault of §4.1 is not modelled: no claim under
verification depends on it, and every verified scenario stays far below
the capacity. -/
structure FrameAlignedBuffer where
  data : List Nat
deriving DecidableEq, Repr

/-- Modelled from the spec: `write(bytes)` appends (§4.1). -/
def FrameAlignedBuffer.write (b : FrameAlignedBuffer) (chunk : List Nat) :
    FrameAlignedBuffer :=
  { data := b.data ++ chunk }

/-- Modelled from the spec: `has_complete_frame()` (§4.1). -/
def FrameAlignedBuffer.has_complete_frame (b : FrameAlignedBuffer) : Bool :=
  decide (FRAME_BYTES ≤ b.data.length)

/-- Modelled from the spec: `read_frame()` removes exactly one fixed-size
frame from the front, leaving the remainder (§4.1). -/
def FrameAlignedBuffer.read_frame (b : FrameAlignedBuffer) :
    Option (List Nat) × FrameAlignedBuffer :=
  if FRAME_BYTES ≤ b.data.length then
    (some (b.data.take FRAME_BYTES), { data := b.data.drop FRAME_BYTES })
  else (none, b)

/-- Modelled from the spec: `clear()` discards all buffered bytes (§4.1). -/
def FrameAlignedBuffer.clear (_b : FrameAlignedBuffer) : FrameAlignedBuffer :=
  { data := [] }

/-- The oracle adapter (`self.vad_iterator` plus the int16→float
normalization feeding it): a stateful, fallible per-frame classifier.
The state `σo` abstracts the iterator's internal smoothing state, the
`Except` error an arbitrary Python exception. -/
def Oracle (σo : Type) : Type :=
  σo → List Nat → Except Unit (σo × Option VerdictDict)

/-- `StreamProcessor` of `processor.py` (the session orchestrator).
`is_init` models the `is_initialized` flag together with the
`vad_iterator is None` test of `process_chunk` (the two are set and
cleared together along the modelled lifecycle). -/
structure StreamProcessor (σo : Type) where
  frame_buffer : FrameAlignedBuffer
  state_machine : VADStateMachine InterruptionManager
  oracle_state : σo
  frame_counter : Nat
  total_chunks_processed : Nat
  total_processing_time_ms : ℚ
  speech_segments_count : Nat
  single_frames_count : Nat
  error_count : Nat
  processing_times : List ℚ
  last_process_time : ℚ
  is_init : Bool

/-- `max_processing_times` of `processor.py` (rolling window length). -/
def max_processing_times : Nat := 100

/-- `_record_processing_time` of `processor.py`: append, then drop the
oldest entry while over the window length. -/
def record_processing_time (times : List ℚ) (t : ℚ) : List ℚ :=
  let ts := times ++ [t]
  if ts.length > max_processing_times then ts.drop 1 else ts

/-- Outcome of `_process_chunk_internal`: either the results (with the
mutated processor and, as a ghost observation for the specification, the
list of `AudioFrame` values constructed during the run), or the
`ProcessingError` path of the `except` clause (processor with the error
counter already incremented). -/
inductive ChunkOutcome (σo : Type) where
  | ok (p : StreamProcessor σo) (results : List CascadeResult)
      (frames : List AudioFrame)
  | err (p : StreamProcessor σo)

/-- The frame-draining `while` loop of `_process_chunk_internal`: read one
complete frame, classify it, build the `AudioFrame` (id = incremented
counter, timestamp = id × 32 ms), feed it to the state machine, update the
segment/frame counters, and recurse; an oracle failure aborts with the
state mutated so far (the already-consumed frame stays consumed, the
frame counter is not yet incremented, matching the statement order of the
source).  `acc` accumulates the emitted results, `ghost` the constructed
frames (a specification-only observation). -/
def processLoop {σo : Type} (oracle : Oracle σo) (p : StreamProcessor σo)
    (acc : List CascadeResult) (ghost : List AudioFrame) :
    Except (StreamProcessor σo)
      (StreamProcessor σo × List CascadeResult × List AudioFrame) :=
  if h : p.frame_buffer.has_complete_frame = true then
    match hrd : p.frame_buffer.read_frame with
    | (none, _) => Except.ok (p, acc, ghost)
    | (some frame_data, buf1) =>
      let p1 := { p with frame_buffer := buf1 }
      match oracle p.oracle_state frame_data with
      | Except.error _ => Except.error p1
      | Except.ok (os1, vres) =>
        let fc := p.frame_counter + 1
        let frame : AudioFrame :=
          { frame_id := fc
            audio_data := frame_data
            timestamp_ms := fc * 32
            vad_result := vres }
        let sr := process_frame managerArbiter p.state_machine frame
        let p2 := { p1 with oracle_state := os1
                            frame_counter := fc
                            state_machine := sr.1 }
        match sr.2 with
        | some r =>
            let p3 :=
              if r.is_speech_segment then
                { p2 with speech_segments_count := p2.speech_segments_count + 1 }
              else
                { p2 with single_frames_count := p2.single_frames_count + 1 }
            processLoop oracle p3 (acc ++ [r]) (ghost ++ [frame])
        | none => processLoop oracle p2 acc (ghost ++ [frame])
  else Except.ok (p, acc, ghost)
termination_by p.frame_buffer.data.length
decreasing_by
  all_goals
    simp only [FrameAlignedBuffer.read_frame] at hrd
    split at hrd
    · cases hrd
      have hfb : 0 < FRAME_BYTES := by decide
      try split
      all_goals (simp only [List.length_drop]; omega)
    · cases hrd

/-- `_process_chunk_internal` of `processor.py`: write the chunk into the
buffer, drain complete frames, then (success path only) bump the chunk
counter, accumulate the measured latency and record it into the rolling
window; on failure increment the error counter and surface the
`ProcessingError`. -/
def processChunkInternal {σo : Type} (oracle : Oracle σo)
    (p : StreamProcessor σo) (chunk : List Nat) (elapsed : ℚ) :
    ChunkOutcome σo :=
  let pw := { p with frame_buffer := p.frame_buffer.write chunk }
  match processLoop oracle pw [] [] with
  | Except.error q => ChunkOutcome.err { q with error_count := q.error_count + 1 }
  | Except.ok (q, results, frames) =>
      ChunkOutcome.ok
        { q with total_chunks_processed := q.total_chunks_processed + 1
                 total_processing_time_ms := q.total_processing_time_ms + elapsed
                 processing_times := record_processing_time q.processing_times elapsed }
        results frames

/-- Result of `_validate_audio_chunk` of `processor.py` (which raises
`CascadeError` in the two failure cases). -/
inductive ValidationResult where
  | ok
  | tooLarge
  | oddSize
deriving DecidableEq, Repr

/-- `_validate_audio_chunk` of `processor.py`: empty chunks pass, then the
512 KiB bound is checked, then 16-bit alignment. -/
def validate_audio_chunk (chunk : List Nat) : ValidationResult :=
  let data_size := chunk.length
  if data_size = 0 then ValidationResult.ok
  else if data_size > MAX_CHUNK_SIZE then ValidationResult.tooLarge
  else if data_size % 2 ≠ 0 then ValidationResult.oddSize
  else ValidationResult.ok

/-- Outcome of the public `process_chunk`: success (with results and the
ghost frame trace), or one of the `CascadeError` paths, each carrying the
processor state at the moment the exception propagates. -/
inductive ProcessOutcome (σo : Type) where
  | ok (p : StreamProcessor σo) (results : List CascadeResult)
      (frames : List AudioFrame)
  | stateError (p : StreamProcessor σo)
  | inputError (p : StreamProcessor σo)
  | processingError (p : StreamProcessor σo)

/-- `process_chunk` of `processor.py`: reject when uninitialized
(`vad_iterator is None`), validate the chunk, run the internal processing
(the admission semaphore is invisible to the sequential single-caller
semantics, §5 of the spec), and on success record `_last_process_time`
(modelled by the environment-supplied clock `now`). -/
def process_chunk {σo : Type} (oracle : Oracle σo) (p : StreamProcessor σo)
    (chunk : List Nat) (elapsed now : ℚ) : ProcessOutcome σo :=
  if p.is_init = false then ProcessOutcome.stateError p
  else
    match validate_audio_chunk chunk with
    | ValidationResult.tooLarge => ProcessOutcome.inputError p
    | ValidationResult.oddSize => ProcessOutcome.inputError p
    | ValidationResult.ok =>
        match processChunkInternal oracle p chunk elapsed with
        | ChunkOutcome.err q => ProcessOutcome.processingError q
        | ChunkOutcome.ok q results frames =>
            ProcessOutcome.ok { q with last_process_time := now } results frames

/-- `close` of `processor.py`: reset the oracle adapter state
(`vad_iterator.reset_states()`, then the iterator is dropped; modelled by
the environment-supplied `resetOracle`), clear the buffer, reset the
state machine, clear the rolling latency window and mark the session
uninitialized.  The frame and statistics counters are untouched by the
source. -/
def close {σo : Type} (p : StreamProcessor σo) (resetOracle : σo → σo) :
    StreamProcessor σo :=
  { p with oracle_state := resetOracle p.oracle_state
           frame_buffer := p.frame_buffer.clear
           state_machine := p.state_machine.reset
           processing_times := []
           is_init := false }

/-- `initialize` of `processor.py`: idempotent; on first call load a fresh
oracle (`fresh` models the newly constructed `VADIterator` state) and mark
the session initialized. -/
def initSession {σo : Type} (p : StreamProcessor σo) (fresh : σo) :
    StreamProcessor σo :=
  if p.is_init then p
  else { p with is_init := true, oracle_state := fresh }

/-- `ProcessorStats` of `types.py` as populated by `get_stats`. -/
structure ProcessorStats where
  total_chunks_processed : Nat
  total_processing_time_ms : ℚ
  average_processing_time_ms : ℚ
  speech_segments : Nat
  single_frames : Nat
  speech_ratio : ℚ
  throughput_chunks_per_second : ℚ
  memory_usage_mb : ℚ
  error_count : Nat
  error_rate : ℚ
deriving DecidableEq, Repr

/-- The three health-alert logs that `get_stats` of `processor.py` can
emit (slow average latency, high error rate, low throughput). -/
structure HealthWarnings where
  high_latency : Bool
  high_error_rate : Bool
  low_throughput : Bool
deriving DecidableEq, Repr

/-- `get_stats` of `processor.py`: derived metrics plus the performance
alerts.  The alert block runs only when `total_chunks_processed > 10`,
and the throughput alert additionally requires
`total_chunks_processed > 100`. -/
def get_stats {σo : Type} (p : StreamProcessor σo) :
    ProcessorStats × HealthWarnings :=
  let avg_processing_time : ℚ :=
    if p.total_chunks_processed > 0 then
      p.total_processing_time_ms / (p.total_chunks_processed : ℚ)
    else 0
  let total_results := p.speech_segments_count + p.single_frames_count
  let speech_ratio : ℚ :=
    if total_results > 0 then
      (p.speech_segments_count : ℚ) / (total_results : ℚ)
    else 0
  let throughput : ℚ :=
    if p.total_processing_time_ms > 0 then
      (p.total_chunks_processed : ℚ) / (p.total_processing_time_ms / 1000)
    else 0
  let error_rate : ℚ :=
    if p.total_chunks_processed > 0 then
      (p.error_count : ℚ) / (p.total_chunks_processed : ℚ)
    else 0
  let memory_usage_mb : ℚ := if p.is_init then 80 else 0
  let warnings : HealthWarnings :=
    if p.total_chunks_processed > 10 then
      { high_latency := decide (avg_processing_time > 100)
        high_error_rate := decide (error_rate > 5 / 100)
        low_throughput :=
          decide (throughput < 10) && decide (p.total_chunks_processed > 100) }
    else
      { high_latency := false, high_error_rate := false, low_throughput := false }
  ({ total_chunks_processed := p.total_chunks_processed
     total_processing_time_ms := p.total_processing_time_ms
     average_processing_time_ms := avg_processing_time
     speech_segments := p.speech_segments_count
     single_frames := p.single_frames_count
     speech_ratio := speech_ratio
     throughput_chunks_per_second := throughput
     memory_usage_mb := memory_usage_mb
     error_count := p.error_count
     error_rate := error_rate }, warnings)

/-! ## Outcome projections used by the specification statements -/

def ProcessOutcome.isOk {σo : Type} : ProcessOutcome σo → Bool
  | ProcessOutcome.ok _ _ _ => true
  | _ => false

def ProcessOutcome.resultsOf {σo : Type} : ProcessOutcome σo → List CascadeResult
  | ProcessOutcome.ok _ results _ => results
  | _ => []

def ProcessOutcome.framesOf {σo : Type} : ProcessOutcome σo → List AudioFrame
  | ProcessOutcome.ok _ _ frames => frames
  | _ => []

def ProcessOutcome.stateOf {σo : Type} : ProcessOutcome σo → StreamProcessor σo
  | ProcessOutcome.ok p _ _ => p
  | ProcessOutcome.stateError p => p
  | ProcessOutcome.inputError p => p
  | ProcessOutcome.processingError p => p

def ProcessOutcome.counterOf {σo : Type} (o : ProcessOutcome σo) : Nat :=
  (ProcessOutcome.stateOf o).frame_counter

/-! ## Concrete fixtures (used by the witness statements) -/

/-- A trivial arbiter over `Unit` whose state answer is constantly `Idle`;
used to witness the gatekeeper rejection path. -/
def unitArbiter : ArbiterImpl Unit where
  on_speech_start := fun u _ => (u, none)
  on_speech_end := fun u _ => u
  get_state := fun _ => SystemState.idle

def idleMachine : VADStateMachine Unit :=
  { instance_id := "sm"
    state := VADState.idle
    current_collector := none
    segment_counter := 0
    manager := () }

def frameStartV : AudioFrame :=
  { frame_id := 1, audio_data := [], timestamp_ms := 32
    vad_result := some { hasStart := true, hasEnd := false } }

def frameEndV : AudioFrame :=
  { frame_id := 2, audio_data := [], timestamp_ms := 64
    vad_result := some { hasStart := false, hasEnd := true } }

def frameOtherV : AudioFrame :=
  { frame_id := 3, audio_data := [], timestamp_ms := 96
    vad_result := some { hasStart := false, hasEnd := false } }

def collectingMachine : VADStateMachine Unit :=
  { instance_id := "sm"
    state := VADState.collecting
    current_collector := some { segment_id := 1, frames := [frameStartV] }
    segment_counter := 1
    manager := () }

/-- An oracle that always answers "no activity" and never fails. -/
def trivialOracle : Oracle Unit := fun s _ => Except.ok (s, none)

/-- An interruption manager in its initial configuration
(`enable_interruption = true`, 500 ms debounce, idle). -/
def defaultManager : InterruptionManager :=
  { enable_interruption := true
    min_interval_ms := 500
    state := SystemState.idle
    last_interruption_ms := none
    interruption_count := 0
    debounced_count := 0
    transition_count := 0 }

def initialMachine : VADStateMachine InterruptionManager :=
  { instance_id := "stream_processor"
    state := VADState.idle
    current_collector := none
    segment_counter := 0
    manager := defaultManager }

/-- A freshly initialized session with an empty buffer and zeroed
counters. -/
def sampleProcessor : StreamProcessor Unit :=
  { frame_buffer := { data := [] }
    state_machine := initialMachine
    oracle_state := ()
    frame_counter := 0
    total_chunks_processed := 0
    total_processing_time_ms := 0
    speech_segments_count := 0
    single_frames_count := 0
    error_count := 0
    processing_times := []
    last_process_time := 0
    is_init := true }

/-- One complete frame worth of silence bytes. -/
def chunk1024 : List Nat := List.replicate 1024 0

/-- A single stray byte: the smallest odd-length chunk. -/
def oddChunk : List Nat := [0]

/-- A chunk of 512 KiB + 1 bytes. -/
def bigChunk : List Nat := List.replicate (MAX_CHUNK_SIZE + 1) 0

/-- A session that has processed exactly 10 chunks with an average
latency of 200 ms and an error on every chunk. -/
def statsProcessor : StreamProcessor Unit :=
  { sampleProcessor with
    total_chunks_processed := 10
    total_processing_time_ms := 2000
    error_count := 10 }

/-- A session whose frame counter has advanced to 5, then closed and
re-initialized; used to examine the counter across the reset. -/
def reopenedProcessor : StreamProcessor Unit :=
  initSession (close { sampleProcessor with frame_counter := 5 } (fun s => s)) ()

/-! ## State machine well-formedness

`Collecting` always has an open collector; this justifies reading the
End-verdict transition of the spec on the reachable states only. -/

def VADStateMachine.wf {σ : Type} (m : VADStateMachine σ) : Prop :=
  m.state = VADState.collecting → m.current_collector.isSome = true

theorem process_frame_preserves_wf {σ : Type} (A : ArbiterImpl σ)
    (m : VADStateMachine σ) (f : AudioFrame) (h : m.wf) :
    (process_frame A m f).1.wf := by
  obtain ⟨iid, st, cc, sc, mgr⟩ := m
  simp only [process_frame, handle_vad_result]
  rcases f.vad_result with _ | v
  · cases st <;> rcases cc with _ | c <;>
      simp_all [handle_no_speech, VADStateMachine.wf]
  · rcases hs : v.hasStart
    · rcases he : v.hasEnd
      · cases st <;> rcases cc with _ | c <;>
          simp_all [handle_no_speech, VADStateMachine.wf]
      · cases st <;> rcases cc with _ | c <;>
          simp_all [handle_speech_end, VADStateMachine.wf]
    · simp only [handle_speech_start, hs, if_true]
      split
      · simp_all [VADStateMachine.wf]
      · split
        · simp_all [VADStateMachine.wf]
        · split <;> simp [VADStateMachine.wf]

theorem reset_preserves_wf {σ : Type} (m : VADStateMachine σ) :
    m.reset.wf := by
  simp [VADStateMachine.reset, VADStateMachine.wf]

/-! ## Claims about the state machine -/

/-- C1: for every frame carrying a Start verdict, the state machine first
calls the arbiter's `on_speech_start` and then re-reads the arbiter
state; if that state is not `Collecting`, the start verdict is ignored
entirely — the local `VADState`, the open collector and the segment
counter are unchanged (only the arbiter state advanced by the call is
retained) and no result is emitted. -/
theorem start_verdict_gatekeeper {σ : Type} (A : ArbiterImpl σ)
    (m : VADStateMachine σ) (f : AudioFrame) (v : VerdictDict)
    (hv : f.vad_result = some v) (hs : v.hasStart = true)
    (hg : A.get_state (A.on_speech_start m.manager f.timestamp_ms).1 ≠
      SystemState.collecting) :
    process_frame A m f =
        ({ m with manager := (A.on_speech_start m.manager f.timestamp_ms).1 }, none)
    ∧ (process_frame A m f).1.state = m.state
    ∧ (process_frame A m f).1.current_collector = m.current_collector
    ∧ (process_frame A m f).1.segment_counter = m.segment_counter
    ∧ (process_frame A m f).2 = none := by
  have key : process_frame A m f =
      ({ m with manager := (A.on_speech_start m.manager f.timestamp_ms).1 }, none) := by
    simp only [process_frame, handle_vad_result, hv, hs, if_true]
    simp only [handle_speech_start]
    rw [if_pos hg]
  exact ⟨key, by rw [key], by rw [key], by rw [key], by rw [key]⟩

theorem start_verdict_gatekeeper_witness :
    process_frame unitArbiter idleMachine frameStartV = (idleMachine, none) := by
  have h := (start_verdict_gatekeeper unitArbiter idleMachine frameStartV
      { hasStart := true, hasEnd := false } rfl rfl (by decide)).1
  exact h

/-- C6: for every frame carrying an End verdict (and no Start key), the
arbiter's `on_speech_end` is notified unconditionally; if the local state
is not `Collecting` nothing else changes and nothing is emitted;
otherwise the open segment is finalized, the local state returns to
`Idle`, the collector is cleared, and exactly one segment-level result is
emitted. -/
theorem end_verdict_behavior {σ : Type} (A : ArbiterImpl σ)
    (m : VADStateMachine σ) (f : AudioFrame) (v : VerdictDict)
    (hv : f.vad_result = some v) (hs : v.hasStart = false) (he : v.hasEnd = true) :
    (process_frame A m f).1.manager = A.on_speech_end m.manager f.timestamp_ms
    ∧ (m.state ≠ VADState.collecting →
        process_frame A m f =
          ({ m with manager := A.on_speech_end m.manager f.timestamp_ms }, none))
    ∧ (∀ c : SpeechCollector, m.state = VADState.collecting →
        m.current_collector = some c →
        process_frame A m f =
          ({ m with manager := A.on_speech_end m.manager f.timestamp_ms
                    state := VADState.idle
                    current_collector := none },
           some { result_type := "segment"
                  frame := none
                  segment := some (c.end_collection f)
                  interruption := none
                  instance_id := m.instance_id })) := by
  obtain ⟨iid, st, cc, sc, mgr⟩ := m
  simp only [process_frame, handle_vad_result, hv, hs, he, Bool.false_eq_true,
    if_false, if_true]
  cases st <;> rcases cc with _ | c <;>
    simp_all [handle_speech_end]

theorem end_verdict_behavior_witness :
    process_frame unitArbiter collectingMachine frameEndV =
      ({ collectingMachine with state := VADState.idle, current_collector := none },
       some { result_type := "segment"
              frame := none
              segment := some (SpeechCollector.end_collection
                { segment_id := 1, frames := [frameStartV] } frameEndV)
              interruption := none
              instance_id := "sm" }) := by
  exact (end_verdict_behavior unitArbiter collectingMachine frameEndV
      { hasStart := false, hasEnd := true } rfl rfl rfl).2.2
      { segment_id := 1, frames := [frameStartV] } rfl rfl

/-- C7: processing one frame through the state machine yields at most one
result (the return is an `Option`), and any returned result is tagged
with one of exactly three kinds: frame, segment or interruption. -/
theorem frame_yields_one_tagged_result {σ : Type} (A : ArbiterImpl σ)
    (m : VADStateMachine σ) (f : AudioFrame) :
    (process_frame A m f).2 = none
    ∨ ∃ r : CascadeResult, (process_frame A m f).2 = some r
        ∧ (r.result_type = "frame" ∨ r.result_type = "segment"
            ∨ r.result_type = "interruption") := by
  obtain ⟨iid, st, cc, sc, mgr⟩ := m
  simp only [process_frame, handle_vad_result]
  rcases f.vad_result with _ | v
  · cases st <;> rcases cc with _ | c <;>
      simp [handle_no_speech]
  · rcases hs : v.hasStart
    · rcases he : v.hasEnd
      · cases st <;> rcases cc with _ | c <;>
          simp [handle_no_speech, hs, he]
      · cases st <;> rcases cc with _ | c <;>
          simp [handle_speech_end, hs, he]
    · simp only [handle_speech_start, hs, if_true]
      split
      · simp
      · split
        · simp
        · split <;> simp

/-- C10: a frame whose verdict dict carries neither a `start` nor an `end`
key is handled exactly like a no-activity verdict: while collecting the
frame is appended to the open collector with no result, and in the idle
state a frame-level result is emitted. -/
theorem unknown_verdict_as_no_speech {σ : Type} (A : ArbiterImpl σ)
    (m : VADStateMachine σ) (f : AudioFrame) (v : VerdictDict)
    (hv : f.vad_result = some v) (hs : v.hasStart = false) (he : v.hasEnd = false) :
    process_frame A m f = handle_no_speech m f
    ∧ (∀ c : SpeechCollector, m.state = VADState.collecting →
        m.current_collector = some c →
        process_frame A m f =
          ({ m with current_collector := some (c.add_frame f) }, none))
    ∧ (m.state = VADState.idle →
        process_frame A m f =
          (m, some { result_type := "frame"
                     frame := some f
                     segment := none
                     interruption := none
                     instance_id := m.instance_id })) := by
  obtain ⟨iid, st, cc, sc, mgr⟩ := m
  simp only [process_frame, handle_vad_result, hv, hs, he, Bool.false_eq_true,
    if_false]
  cases st <;> rcases cc with _ | c <;>
    simp_all [handle_no_speech]


/-! ## Loop characterization and invariants -/

theorem processLoop_step {σo : Type} (oracle : Oracle σo) (p : StreamProcessor σo)
    (acc : List CascadeResult) (ghost : List AudioFrame) :
    processLoop oracle p acc ghost =
      if FRAME_BYTES ≤ p.frame_buffer.data.length then
        match oracle p.oracle_state (p.frame_buffer.data.take FRAME_BYTES) with
        | Except.error _ =>
            Except.error
              { p with frame_buffer := { data := p.frame_buffer.data.drop FRAME_BYTES } }
        | Except.ok (os1, vres) =>
            let fc := p.frame_counter + 1
            let frame : AudioFrame :=
              { frame_id := fc
                audio_data := p.frame_buffer.data.take FRAME_BYTES
                timestamp_ms := fc * 32
                vad_result := vres }
            let sr := process_frame managerArbiter p.state_machine frame
            let p2 := { p with
              frame_buffer := { data := p.frame_buffer.data.drop FRAME_BYTES }
              oracle_state := os1
              frame_counter := fc
              state_machine := sr.1 }
            match sr.2 with
            | some r =>
                let p3 :=
                  if r.is_speech_segment then
                    { p2 with speech_segments_count := p2.speech_segments_count + 1 }
                  else
                    { p2 with single_frames_count := p2.single_frames_count + 1 }
                processLoop oracle p3 (acc ++ [r]) (ghost ++ [frame])
            | none => processLoop oracle p2 acc (ghost ++ [frame])
      else Except.ok (p, acc, ghost) := by
  rw [processLoop.eq_def]
  by_cases hle : FRAME_BYTES ≤ p.frame_buffer.data.length
  · have hcomp : p.frame_buffer.has_complete_frame = true := by
      simp [FrameAlignedBuffer.has_complete_frame, hle]
    rw [if_pos hle, dif_pos hcomp]
    split
    · next snd heq =>
        rw [FrameAlignedBuffer.read_frame, if_pos hle] at heq
        cases heq
    · next frame_data buf1 heq =>
        rw [FrameAlignedBuffer.read_frame, if_pos hle] at heq
        injection heq with h1 h2
        injection h1 with h1
        subst h1 h2
        rfl
  · have hcomp : ¬ p.frame_buffer.has_complete_frame = true := by
      simp [FrameAlignedBuffer.has_complete_frame, hle]
    rw [if_neg hle, dif_neg hcomp]

theorem processLoop_ok_spec {σo : Type} (oracle : Oracle σo) :
    ∀ (n : Nat) (p : StreamProcessor σo) (acc : List CascadeResult)
      (ghost : List AudioFrame) (q : StreamProcessor σo)
      (results : List CascadeResult) (frames : List AudioFrame),
      p.frame_buffer.data.length ≤ n →
      processLoop oracle p acc ghost = Except.ok (q, results, frames) →
      frames.map AudioFrame.frame_id
          = ghost.map AudioFrame.frame_id
            ++ List.range' (p.frame_counter + 1) (q.frame_counter - p.frame_counter)
        ∧ p.frame_counter ≤ q.frame_counter
        ∧ q.error_count = p.error_count
        ∧ (∀ f ∈ frames, f ∈ ghost ∨ f.timestamp_ms = f.frame_id * 32)
        ∧ q.frame_buffer.has_complete_frame = false := by
  intro n
  induction n using Nat.strong_induction_on with
  | _ n ih =>
    intro p acc ghost q results frames hlen h
    rw [processLoop_step] at h
    by_cases hle : FRAME_BYTES ≤ p.frame_buffer.data.length
    · rw [if_pos hle] at h
      rcases hor : oracle p.oracle_state (p.frame_buffer.data.take FRAME_BYTES) with e | ⟨os1, vres⟩
      · rw [hor] at h; cases h
      · rw [hor] at h
        simp only [] at h
        rcases hsr : (process_frame managerArbiter p.state_machine
            { frame_id := p.frame_counter + 1
              audio_data := List.take FRAME_BYTES p.frame_buffer.data
              timestamp_ms := (p.frame_counter + 1) * 32
              vad_result := vres }).2 with _ | r
        · rw [hsr] at h
          simp only [] at h
          have h0 : 0 < FRAME_BYTES := by decide
          have hlt : (p.frame_buffer.data.drop FRAME_BYTES).length < n := by
            simp only [List.length_drop]; omega
          obtain ⟨h1, h2, h3, h4, h5⟩ :=
            ih (p.frame_buffer.data.drop FRAME_BYTES).length hlt _ _ _ q results frames
              (le_refl _) h
          dsimp only at h1 h2 h3
          refine ⟨?_, by omega, h3, ?_, h5⟩
          · have hk : q.frame_counter - p.frame_counter
                = (q.frame_counter - (p.frame_counter + 1)) + 1 := by omega
            rw [hk, List.range'_succ]
            simp only [List.map_append, List.map_cons, List.map_nil] at h1
            rw [h1]
            simp
          · intro f hf
            rcases h4 f hf with hg | hts
            · rcases List.mem_append.mp hg with hg2 | hfl
              · exact Or.inl hg2
              · right
                have hfeq : f = { frame_id := p.frame_counter + 1
                                  audio_data := List.take FRAME_BYTES p.frame_buffer.data
                                  timestamp_ms := (p.frame_counter + 1) * 32
                                  vad_result := vres } := by simpa using hfl
                subst hfeq
                rfl
            · exact Or.inr hts
        · rw [hsr] at h
          simp only [] at h
          have h0 : 0 < FRAME_BYTES := by decide
          have hlt : (p.frame_buffer.data.drop FRAME_BYTES).length < n := by
            simp only [List.length_drop]; omega
          by_cases hseg : r.is_speech_segment = true
          · rw [if_pos hseg] at h
            obtain ⟨h1, h2, h3, h4, h5⟩ :=
              ih (p.frame_buffer.data.drop FRAME_BYTES).length hlt _ _ _ q results frames
                (le_refl _) h
            dsimp only at h1 h2 h3
            refine ⟨?_, by omega, h3, ?_, h5⟩
            · have hk : q.frame_counter - p.frame_counter
                  = (q.frame_counter - (p.frame_counter + 1)) + 1 := by omega
              rw [hk, List.range'_succ]
              simp only [List.map_append, List.map_cons, List.map_nil] at h1
              rw [h1]
              simp
            · intro f hf
              rcases h4 f hf with hg | hts
              · rcases List.mem_append.mp hg with hg2 | hfl
                · exact Or.inl hg2
                · right
                  have hfeq : f = { frame_id := p.frame_counter + 1
                                    audio_data := List.take FRAME_BYTES p.frame_buffer.data
                                    timestamp_ms := (p.frame_counter + 1) * 32
                                    vad_result := vres } := by simpa using hfl
                  subst hfeq
                  rfl
              · exact Or.inr hts
          · rw [if_neg hseg] at h
            obtain ⟨h1, h2, h3, h4, h5⟩ :=
              ih (p.frame_buffer.data.drop FRAME_BYTES).length hlt _ _ _ q results frames
                (le_refl _) h
            dsimp only at h1 h2 h3
            refine ⟨?_, by omega, h3, ?_, h5⟩
            · have hk : q.frame_counter - p.frame_counter
                  = (q.frame_counter - (p.frame_counter + 1)) + 1 := by omega
              rw [hk, List.range'_succ]
              simp only [List.map_append, List.map_cons, List.map_nil] at h1
              rw [h1]
              simp
            · intro f hf
              rcases h4 f hf with hg | hts
              · rcases List.mem_append.mp hg with hg2 | hfl
                · exact Or.inl hg2
                · right
                  have hfeq : f = { frame_id := p.frame_counter + 1
                                    audio_data := List.take FRAME_BYTES p.frame_buffer.data
                                    timestamp_ms := (p.frame_counter + 1) * 32
                                    vad_result := vres } := by simpa using hfl
                  subst hfeq
                  rfl
              · exact Or.inr hts
    · rw [if_neg hle] at h
      injection h with h
      injection h with hq h
      injection h with hres hfr
      subst hq hres hfr
      refine ⟨?_, le_refl _, rfl, ?_, ?_⟩
      · simp
      · intro f hf; exact Or.inl hf
      · simp [FrameAlignedBuffer.has_complete_frame, hle]

theorem processLoop_error_spec {σo : Type} (oracle : Oracle σo) :
    ∀ (n : Nat) (p : StreamProcessor σo) (acc : List CascadeResult)
      (ghost : List AudioFrame) (q : StreamProcessor σo),
      p.frame_buffer.data.length ≤ n →
      processLoop oracle p acc ghost = Except.error q →
      q.error_count = p.error_count := by
  intro n
  induction n using Nat.strong_induction_on with
  | _ n ih =>
    intro p acc ghost q hlen h
    rw [processLoop_step] at h
    by_cases hle : FRAME_BYTES ≤ p.frame_buffer.data.length
    · rw [if_pos hle] at h
      rcases hor : oracle p.oracle_state (p.frame_buffer.data.take FRAME_BYTES) with e | ⟨os1, vres⟩
      · rw [hor] at h
        injection h with h
        subst h
        rfl
      · rw [hor] at h
        simp only [] at h
        rcases hsr : (process_frame managerArbiter p.state_machine
            { frame_id := p.frame_counter + 1
              audio_data := List.take FRAME_BYTES p.frame_buffer.data
              timestamp_ms := (p.frame_counter + 1) * 32
              vad_result := vres }).2 with _ | r
        · rw [hsr] at h
          simp only [] at h
          have h0 : 0 < FRAME_BYTES := by decide
          have hlt : (p.frame_buffer.data.drop FRAME_BYTES).length < n := by
            simp only [List.length_drop]; omega
          have he := ih (p.frame_buffer.data.drop FRAME_BYTES).length hlt _ _ _ q
            (le_refl _) h
          exact he
        · rw [hsr] at h
          simp only [] at h
          have h0 : 0 < FRAME_BYTES := by decide
          have hlt : (p.frame_buffer.data.drop FRAME_BYTES).length < n := by
            simp only [List.length_drop]; omega
          by_cases hseg : r.is_speech_segment = true
          · rw [if_pos hseg] at h
            have he := ih (p.frame_buffer.data.drop FRAME_BYTES).length hlt _ _ _ q
              (le_refl _) h
            exact he
          · rw [if_neg hseg] at h
            have he := ih (p.frame_buffer.data.drop FRAME_BYTES).length hlt _ _ _ q
              (le_refl _) h
            exact he
    · rw [if_neg hle] at h
      cases h

/-- Invariants of a successful `_process_chunk_internal` run: the ghost
frames carry the consecutive ids following the entry frame counter, every
constructed frame has timestamp id × 32 ms, the error counter is
untouched, and the buffer retains no complete frame. -/
theorem processChunkInternal_ok_spec {σo : Type} (oracle : Oracle σo)
    (p : StreamProcessor σo) (chunk : List Nat) (e : ℚ)
    (q : StreamProcessor σo) (results : List CascadeResult)
    (frames : List AudioFrame)
    (h : processChunkInternal oracle p chunk e = ChunkOutcome.ok q results frames) :
    frames.map AudioFrame.frame_id
        = List.range' (p.frame_counter + 1) (q.frame_counter - p.frame_counter)
    ∧ p.frame_counter ≤ q.frame_counter
    ∧ q.error_count = p.error_count
    ∧ (∀ f ∈ frames, f.timestamp_ms = f.frame_id * 32)
    ∧ q.frame_buffer.has_complete_frame = false := by
  unfold processChunkInternal at h
  simp only [] at h
  rcases hl : processLoop oracle
      { p with frame_buffer := p.frame_buffer.write chunk } [] []
    with q0 | ⟨q0, res0, fr0⟩
  · rw [hl] at h
    simp only [] at h
    cases h
  · rw [hl] at h
    simp only [] at h
    injection h with hq hres hfr
    subst hq hres hfr
    obtain ⟨h1, h2, h3, h4, h5⟩ := processLoop_ok_spec oracle
      ({ p with frame_buffer := p.frame_buffer.write chunk }).frame_buffer.data.length
      _ _ _ _ _ _ (le_refl _) hl
    dsimp only at h1 h2 h3 h5 ⊢
    refine ⟨h1, h2, h3, ?_, h5⟩
    intro f hf
    rcases h4 f hf with hg | hts
    · cases hg
    · exact hts

/-- The failure path of `_process_chunk_internal` increments exactly the
error counter relative to the state at the moment of failure, which
itself preserves the entry error counter. -/
theorem processChunkInternal_err_spec {σo : Type} (oracle : Oracle σo)
    (p : StreamProcessor σo) (chunk : List Nat) (e : ℚ)
    (q : StreamProcessor σo)
    (h : processChunkInternal oracle p chunk e = ChunkOutcome.err q) :
    q.error_count = p.error_count + 1 := by
  unfold processChunkInternal at h
  simp only [] at h
  rcases hl : processLoop oracle
      { p with frame_buffer := p.frame_buffer.write chunk } [] []
    with q0 | ⟨q0, res0, fr0⟩
  · rw [hl] at h
    simp only [] at h
    injection h with hq
    subst hq
    have he := processLoop_error_spec oracle
      ({ p with frame_buffer := p.frame_buffer.write chunk }).frame_buffer.data.length
      _ _ _ _ (le_refl _) hl
    dsimp only at he ⊢
    omega
  · rw [hl] at h
    simp only [] at h
    cases h

theorem unknown_verdict_as_no_speech_witness :
    process_frame unitArbiter idleMachine frameOtherV =
      (idleMachine,
       some { result_type := "frame"
              frame := some frameOtherV
              segment := none
              interruption := none
              instance_id := "sm" }) := by
  exact (unknown_verdict_as_no_speech unitArbiter idleMachine frameOtherV
      { hasStart := false, hasEnd := false } rfl rfl rfl).2.2 rfl


/-- A successful `process_chunk` run: frame ids are the consecutive block
following the entry counter, timestamps are id × 32 ms, the error counter
is untouched and the buffer retains no complete frame. -/
theorem process_chunk_ok_spec {σo : Type} (oracle : Oracle σo)
    (p : StreamProcessor σo) (chunk : List Nat) (e now : ℚ)
    (q : StreamProcessor σo) (results : List CascadeResult)
    (frames : List AudioFrame)
    (h : process_chunk oracle p chunk e now = ProcessOutcome.ok q results frames) :
    frames.map AudioFrame.frame_id
        = List.range' (p.frame_counter + 1) (q.frame_counter - p.frame_counter)
    ∧ p.frame_counter ≤ q.frame_counter
    ∧ q.error_count = p.error_count
    ∧ (∀ f ∈ frames, f.timestamp_ms = f.frame_id * 32)
    ∧ q.frame_buffer.has_complete_frame = false := by
  unfold process_chunk at h
  by_cases hi : p.is_init = false
  · rw [if_pos hi] at h
    cases h
  · rw [if_neg hi] at h
    cases hv : validate_audio_chunk chunk
    · rw [hv] at h
      simp only [] at h
      rcases hc : processChunkInternal oracle p chunk e with ⟨q0, res0, fr0⟩ | q0
      · rw [hc] at h
        simp only [] at h
        injection h with hq hres hfr
        subst hq hres hfr
        obtain ⟨h1, h2, h3, h4, h5⟩ :=
          processChunkInternal_ok_spec oracle p chunk e q0 res0 fr0 hc
        exact ⟨h1, h2, h3, h4, h5⟩
      · rw [hc] at h
        simp only [] at h
        cases h
    · rw [hv] at h
      simp only [] at h
      cases h
    · rw [hv] at h
      simp only [] at h
      cases h

/-! ## Claims about the session orchestrator -/

/-- C2 (amended): within every successful `process_chunk` call the ids of
the complete frames produced form the consecutive block following the
session frame counter (so a fresh session with counter 0 yields
1, 2, 3, … with no gaps across successive calls); `close` does NOT
restart the counter — it leaves `frame_counter` untouched. -/
theorem frame_ids_consecutive {σo : Type} (oracle : Oracle σo)
    (p : StreamProcessor σo) (chunk : List Nat) (e now : ℚ)
    (h : (process_chunk oracle p chunk e now).isOk = true) :
    (process_chunk oracle p chunk e now).framesOf.map AudioFrame.frame_id
        = List.range' (p.frame_counter + 1)
            ((process_chunk oracle p chunk e now).counterOf - p.frame_counter)
    ∧ p.frame_counter ≤ (process_chunk oracle p chunk e now).counterOf
    ∧ (∀ r : σo → σo, (close p r).frame_counter = p.frame_counter) := by
  rcases ho : process_chunk oracle p chunk e now with ⟨q, results, frames⟩ | q | q | q
  · simp only [ProcessOutcome.framesOf, ProcessOutcome.counterOf, ProcessOutcome.stateOf]
    obtain ⟨h1, h2, h3, h4, h5⟩ :=
      process_chunk_ok_spec oracle p chunk e now q results frames ho
    exact ⟨h1, h2, fun r => rfl⟩
  · rw [ho] at h
    simp [ProcessOutcome.isOk] at h
  · rw [ho] at h
    simp [ProcessOutcome.isOk] at h
  · rw [ho] at h
    simp [ProcessOutcome.isOk] at h

set_option maxRecDepth 10000 in
/-- The one-silence-frame demonstration run evaluated: one frame result,
one ghost frame with id 1 and timestamp 32 ms. -/
theorem demo_run_eval :
    process_chunk trivialOracle sampleProcessor chunk1024 0 0 =
      ProcessOutcome.ok
        { frame_buffer := { data := [] }
          state_machine := initialMachine
          oracle_state := ()
          frame_counter := 1
          total_chunks_processed := 1
          total_processing_time_ms := 0
          speech_segments_count := 0
          single_frames_count := 1
          error_count := 0
          processing_times := [0]
          last_process_time := 0
          is_init := true }
        [{ result_type := "frame"
           frame := some { frame_id := 1
                           audio_data := List.replicate 1024 0
                           timestamp_ms := 32
                           vad_result := none }
           segment := none
           interruption := none
           instance_id := "stream_processor" }]
        [{ frame_id := 1
           audio_data := List.replicate 1024 0
           timestamp_ms := 32
           vad_result := none }] := by
  simp [process_chunk, validate_audio_chunk, chunk1024, processChunkInternal, processLoop,
    FrameAlignedBuffer.write, FrameAlignedBuffer.has_complete_frame,
    FrameAlignedBuffer.read_frame, FRAME_BYTES, AUDIO_FRAME_SIZE, sampleProcessor,
    initialMachine, defaultManager, trivialOracle, process_frame, handle_vad_result,
    handle_no_speech, record_processing_time, CascadeResult.is_speech_segment,
    MAX_CHUNK_SIZE, max_processing_times]

theorem frame_ids_consecutive_witness :
    (process_chunk trivialOracle sampleProcessor chunk1024 0 0).framesOf.map
        AudioFrame.frame_id
      = List.range' (sampleProcessor.frame_counter + 1)
          ((process_chunk trivialOracle sampleProcessor chunk1024 0 0).counterOf
            - sampleProcessor.frame_counter)
    ∧ (close sampleProcessor (fun s => s)).frame_counter
        = sampleProcessor.frame_counter := by
  obtain ⟨h1, h2, h3⟩ := frame_ids_consecutive trivialOracle sampleProcessor chunk1024 0 0
    (by rw [demo_run_eval]; rfl)
  exact ⟨h1, h3 (fun s => s)⟩

set_option maxRecDepth 10000 in
/-- The same demonstration run on the closed-then-reopened session whose
counter had reached 5: the next frame id is 6. -/
theorem reopened_run_frames_eval :
    (process_chunk trivialOracle reopenedProcessor chunk1024 0 0).framesOf.map
        AudioFrame.frame_id = [6] := by
  simp [process_chunk, validate_audio_chunk, chunk1024, processChunkInternal, processLoop,
    FrameAlignedBuffer.write, FrameAlignedBuffer.has_complete_frame,
    FrameAlignedBuffer.read_frame, FrameAlignedBuffer.clear, FRAME_BYTES, AUDIO_FRAME_SIZE,
    sampleProcessor, initialMachine, defaultManager, trivialOracle, process_frame,
    handle_vad_result, handle_no_speech, record_processing_time,
    CascadeResult.is_speech_segment, MAX_CHUNK_SIZE, max_processing_times,
    reopenedProcessor, initSession, close, VADStateMachine.reset,
    ProcessOutcome.framesOf]

/-- C2 counterexample: `close` does not restart the frame id counter — a
session whose counter reached 5, once closed and re-initialized, assigns
id 6 (not 1) to its next complete frame. -/
theorem frame_ids_reset_counterexample :
    (close { sampleProcessor with frame_counter := 5 } (fun s => s)).frame_counter = 5
    ∧ (process_chunk trivialOracle reopenedProcessor chunk1024 0 0).framesOf.map
        AudioFrame.frame_id = [6]
    ∧ (process_chunk trivialOracle reopenedProcessor chunk1024 0 0).framesOf.map
        AudioFrame.frame_id ≠ [1] := by
  refine ⟨rfl, reopened_run_frames_eval, ?_⟩
  rw [reopened_run_frames_eval]
  decide

/-- C9: every complete frame produced by a successful `process_chunk` call
has `timestamp_ms` equal to its frame id times the fixed 32 ms frame
duration. -/
theorem timestamp_is_id_times_32 {σo : Type} (oracle : Oracle σo)
    (p : StreamProcessor σo) (chunk : List Nat) (e now : ℚ)
    (h : (process_chunk oracle p chunk e now).isOk = true) :
    (process_chunk oracle p chunk e now).framesOf.map AudioFrame.timestamp_ms
      = (process_chunk oracle p chunk e now).framesOf.map
          (fun f => f.frame_id * 32) := by
  rcases ho : process_chunk oracle p chunk e now with ⟨q, results, frames⟩ | q | q | q
  · simp only [ProcessOutcome.framesOf]
    obtain ⟨h1, h2, h3, h4, h5⟩ :=
      process_chunk_ok_spec oracle p chunk e now q results frames ho
    exact List.map_congr_left h4
  · rw [ho] at h
    simp [ProcessOutcome.isOk] at h
  · rw [ho] at h
    simp [ProcessOutcome.isOk] at h
  · rw [ho] at h
    simp [ProcessOutcome.isOk] at h

theorem timestamp_is_id_times_32_witness :
    (process_chunk trivialOracle sampleProcessor chunk1024 0 0).framesOf.map
        AudioFrame.timestamp_ms
      = (process_chunk trivialOracle sampleProcessor chunk1024 0 0).framesOf.map
          (fun f => f.frame_id * 32) :=
  timestamp_is_id_times_32 trivialOracle sampleProcessor chunk1024 0 0
    (by rw [demo_run_eval]; rfl)


/-- C3: if the oracle invocation fails while processing any frame of a
chunk, `process_chunk` surfaces a `ProcessingError` with the session
error counter incremented by exactly one, and the call returns no
results — results computed for earlier frames of the same chunk are
discarded.  The second conjunct exhibits the failure concretely: for an
always-failing oracle and a chunk completing at least one frame the call
ends in `ProcessingError`, with the consumed frame gone from the buffer
and the error counter bumped. -/
theorem oracle_failure_spec {σo : Type} (p : StreamProcessor σo)
    (chunk : List Nat) (e now : ℚ) :
    (∀ (oracle : Oracle σo) (q : StreamProcessor σo),
        process_chunk oracle p chunk e now = ProcessOutcome.processingError q →
          q.error_count = p.error_count + 1
          ∧ (process_chunk oracle p chunk e now).resultsOf = [])
    ∧ (p.is_init = true → validate_audio_chunk chunk = ValidationResult.ok →
        FRAME_BYTES ≤ p.frame_buffer.data.length + chunk.length →
        process_chunk (fun _ _ => Except.error ()) p chunk e now =
          ProcessOutcome.processingError
            { p with
                frame_buffer := { data := (p.frame_buffer.data ++ chunk).drop FRAME_BYTES }
                error_count := p.error_count + 1 }) := by
  constructor
  · intro oracle q ho
    have ho2 := ho
    unfold process_chunk at ho
    by_cases hi : p.is_init = false
    · rw [if_pos hi] at ho
      cases ho
    · rw [if_neg hi] at ho
      cases hv : validate_audio_chunk chunk
      · rw [hv] at ho
        simp only [] at ho
        rcases hc : processChunkInternal oracle p chunk e with ⟨q0, res0, fr0⟩ | q0
        · rw [hc] at ho
          simp only [] at ho
          cases ho
        · rw [hc] at ho
          simp only [] at ho
          injection ho with hq
          subst hq
          refine ⟨processChunkInternal_err_spec oracle p chunk e _ hc, ?_⟩
          rw [ho2]
          rfl
      · rw [hv] at ho
        simp only [] at ho
        cases ho
      · rw [hv] at ho
        simp only [] at ho
        cases ho
  · intro hinit hv hlen
    unfold process_chunk
    rw [if_neg (by simp [hinit])]
    rw [hv]
    simp only []
    unfold processChunkInternal
    simp only []
    rw [processLoop_step]
    have hle : FRAME_BYTES ≤
        ({ p with frame_buffer := p.frame_buffer.write chunk } :
          StreamProcessor σo).frame_buffer.data.length := by
      simp [FrameAlignedBuffer.write, hlen]
    rw [if_pos hle]
    rfl

set_option maxRecDepth 10000 in
theorem oracle_failure_spec_witness :
    process_chunk (fun _ _ => Except.error ()) sampleProcessor chunk1024 0 0 =
      ProcessOutcome.processingError
        { sampleProcessor with
            frame_buffer := { data := ((sampleProcessor.frame_buffer.data ++ chunk1024).drop FRAME_BYTES) }
            error_count := sampleProcessor.error_count + 1 }
    ∧ (process_chunk (fun _ _ => Except.error ()) sampleProcessor chunk1024 0 0).resultsOf
        = [] := by
  have h2 := (oracle_failure_spec sampleProcessor chunk1024 0 0).2 rfl rfl
    (by decide)
  have h1 := (oracle_failure_spec sampleProcessor chunk1024 0 0).1
    (fun _ _ => Except.error ()) _ h2
  exact ⟨h2, h1.2⟩


/-- C4: with an initialized session whose buffer holds no complete frame
(the invariant after every successful call), a zero-length chunk yields a
successful call with an empty result sequence; any odd-length chunk and
any chunk larger than 512 KiB are rejected with an `InputError` carrying
the untouched session. -/
theorem chunk_boundary_behavior {σo : Type} (oracle : Oracle σo)
    (p : StreamProcessor σo) (e now : ℚ) (hinit : p.is_init = true)
    (hbuf : ¬ FRAME_BYTES ≤ p.frame_buffer.data.length) :
    ((process_chunk oracle p [] e now).isOk = true
        ∧ (process_chunk oracle p [] e now).resultsOf = [])
    ∧ (∀ chunk : List Nat, chunk.length % 2 = 1 →
        process_chunk oracle p chunk e now = ProcessOutcome.inputError p)
    ∧ (∀ chunk : List Nat, MAX_CHUNK_SIZE < chunk.length →
        process_chunk oracle p chunk e now = ProcessOutcome.inputError p) := by
  refine ⟨?_, ?_, ?_⟩
  · have key : process_chunk oracle p [] e now =
        ProcessOutcome.ok
          { p with
              frame_buffer := p.frame_buffer.write []
              total_chunks_processed := p.total_chunks_processed + 1
              total_processing_time_ms := p.total_processing_time_ms + e
              processing_times := record_processing_time p.processing_times e
              last_process_time := now }
          [] [] := by
      unfold process_chunk
      rw [if_neg (by simp [hinit])]
      have hv : validate_audio_chunk [] = ValidationResult.ok := rfl
      rw [hv]
      simp only []
      unfold processChunkInternal
      simp only []
      rw [processLoop_step]
      have hle : ¬ FRAME_BYTES ≤
          ({ p with frame_buffer := p.frame_buffer.write [] } :
            StreamProcessor σo).frame_buffer.data.length := by
        simpa [FrameAlignedBuffer.write] using hbuf
      rw [if_neg hle]
    rw [key]
    exact ⟨rfl, rfl⟩
  · intro chunk hodd
    have hne : chunk.length ≠ 0 := by omega
    unfold process_chunk
    rw [if_neg (by simp [hinit])]
    unfold validate_audio_chunk
    simp only []
    rw [if_neg hne]
    by_cases hbig : chunk.length > MAX_CHUNK_SIZE
    · rw [if_pos hbig]
    · rw [if_neg hbig]
      rw [if_pos (by omega)]
  · intro chunk hbig
    have hne : chunk.length ≠ 0 := by
      have : 0 < MAX_CHUNK_SIZE := by decide
      omega
    unfold process_chunk
    rw [if_neg (by simp [hinit])]
    unfold validate_audio_chunk
    simp only []
    rw [if_neg hne]
    rw [if_pos hbig]

theorem chunk_boundary_behavior_witness :
    ((process_chunk trivialOracle sampleProcessor [] 0 0).isOk = true
        ∧ (process_chunk trivialOracle sampleProcessor [] 0 0).resultsOf = [])
    ∧ process_chunk trivialOracle sampleProcessor oddChunk 0 0
        = ProcessOutcome.inputError sampleProcessor
    ∧ process_chunk trivialOracle sampleProcessor bigChunk 0 0
        = ProcessOutcome.inputError sampleProcessor := by
  obtain ⟨h1, h2, h3⟩ := chunk_boundary_behavior trivialOracle sampleProcessor 0 0
    rfl (by decide)
  exact ⟨h1, h2 oddChunk (by decide), h3 bigChunk (by simp [bigChunk])⟩

/-- C5: when `process_chunk` rejects a chunk failing validation (odd
length or oversized), the rejection happens before any bytes are
buffered: the outcome is an `InputError` carrying exactly the entry
session state — buffer, frame counter, state machine and every statistics
counter unchanged. -/
theorem input_error_no_mutation {σo : Type} (oracle : Oracle σo)
    (p : StreamProcessor σo) (chunk : List Nat) (e now : ℚ)
    (hinit : p.is_init = true)
    (hbad : validate_audio_chunk chunk ≠ ValidationResult.ok) :
    process_chunk oracle p chunk e now = ProcessOutcome.inputError p
    ∧ (process_chunk oracle p chunk e now).stateOf.frame_buffer = p.frame_buffer
    ∧ (process_chunk oracle p chunk e now).stateOf.frame_counter = p.frame_counter
    ∧ (process_chunk oracle p chunk e now).stateOf.state_machine = p.state_machine
    ∧ (process_chunk oracle p chunk e now).stateOf.total_chunks_processed
        = p.total_chunks_processed
    ∧ (process_chunk oracle p chunk e now).stateOf.total_processing_time_ms
        = p.total_processing_time_ms
    ∧ (process_chunk oracle p chunk e now).stateOf.speech_segments_count
        = p.speech_segments_count
    ∧ (process_chunk oracle p chunk e now).stateOf.single_frames_count
        = p.single_frames_count
    ∧ (process_chunk oracle p chunk e now).stateOf.error_count = p.error_count
    ∧ (process_chunk oracle p chunk e now).stateOf.processing_times
        = p.processing_times := by
  have key : process_chunk oracle p chunk e now = ProcessOutcome.inputError p := by
    unfold process_chunk
    rw [if_neg (by simp [hinit])]
    cases hv : validate_audio_chunk chunk
    · exact absurd hv hbad
    · rfl
    · rfl
  rw [key]
  exact ⟨rfl, rfl, rfl, rfl, rfl, rfl, rfl, rfl, rfl, rfl⟩

theorem input_error_no_mutation_witness :
    process_chunk trivialOracle sampleProcessor oddChunk 0 0
        = ProcessOutcome.inputError sampleProcessor
    ∧ (process_chunk trivialOracle sampleProcessor oddChunk 0 0).stateOf.frame_counter
        = sampleProcessor.frame_counter := by
  obtain ⟨h1, _, h3, _⟩ := input_error_no_mutation trivialOracle sampleProcessor
    oddChunk 0 0 rfl (by decide)
  exact ⟨h1, h3⟩

/-- C8 (amended): `get_stats` raises its latency and error alerts exactly
when more than 10 chunks (i.e. at least 11) have been processed and the
average latency exceeds 100 ms resp. the error rate exceeds 5%, and its
throughput alert exactly when more than 100 chunks have been processed
and the throughput is below 10 chunks per second. -/
theorem health_warning_conditions {σo : Type} (p : StreamProcessor σo) :
    ((get_stats p).2.high_latency = true ↔
        10 < p.total_chunks_processed
          ∧ 100 < (get_stats p).1.average_processing_time_ms)
    ∧ ((get_stats p).2.high_error_rate = true ↔
        10 < p.total_chunks_processed ∧ 5 / 100 < (get_stats p).1.error_rate)
    ∧ ((get_stats p).2.low_throughput = true ↔
        100 < p.total_chunks_processed
          ∧ (get_stats p).1.throughput_chunks_per_second < 10) := by
  unfold get_stats
  by_cases hc : 10 < p.total_chunks_processed
  · simp only [if_pos hc]
    refine ⟨?_, ?_, ?_⟩
    · simp [hc]
    · simp [hc]
    · have : (100 < p.total_chunks_processed → 10 < p.total_chunks_processed) := by omega
      constructor
      · intro hb
        simp only [Bool.and_eq_true, decide_eq_true_iff] at hb
        exact ⟨hb.2, hb.1⟩
      · intro hb
        simp only [Bool.and_eq_true, decide_eq_true_iff]
        exact ⟨hb.2, hb.1⟩
  · simp only [if_neg hc]
    have hc2 : ¬ 100 < p.total_chunks_processed := by omega
    refine ⟨?_, ?_, ?_⟩
    · simp [hc]
    · simp [hc]
    · simp [hc2]

/-- C8 counterexample: a session that has processed exactly 10 chunks
with a 200 ms average latency and a 100% error rate crosses both the
latency and the error-rate thresholds, yet `get_stats` emits no warning —
the source requires strictly more than 10 chunks. -/
theorem health_warning_boundary_counterexample :
    (get_stats statsProcessor).2.high_latency = false
    ∧ (get_stats statsProcessor).2.high_error_rate = false
    ∧ (get_stats statsProcessor).2.low_throughput = false
    ∧ 10 ≤ statsProcessor.total_chunks_processed
    ∧ 100 < (get_stats statsProcessor).1.average_processing_time_ms
    ∧ 5 / 100 < (get_stats statsProcessor).1.error_rate := by
  refine ⟨by decide, by decide, by decide, by decide, ?_, ?_⟩
  · norm_num [get_stats, statsProcessor, sampleProcessor]
  · norm_num [get_stats, statsProcessor, sampleProcessor]

end Cascade
